import Mathlib

/-!
Verification of the terminal-bridge library (`mutf8.cpp`, `Terminal.cpp`,
`Terminal.h`) against its natural-language specification.

The C++ sources are shallowly embedded below.  Byte buffers are modelled as
`List Nat` (each element a `uint8_t` value), UTF-16 code units as `Nat`
(`jchar` values), and the machine arithmetic of the sources (`&`, `|`, `<<`,
`>>`, casts) is reproduced with the corresponding `Nat` bitwise operators,
with explicit `% 2 ^ w` wherever a C cast or unsigned wrap-around can
truncate.  All definitions use structural recursion so that they evaluate by
`decide` / `rfl` on concrete inputs.
-/

namespace Termlib

/-! ### Bit-arithmetic helpers -/

/-- Disjoint bitwise or is addition: if the low `k` bits of `a` are clear and
`b` fits in `k` bits, then `a ||| b = a + b`. -/
theorem lor_eq_add (a b k : Nat) (ha : a % 2 ^ k = 0) (hb : b < 2 ^ k) :
    a ||| b = a + b := by
  obtain ⟨q, rfl⟩ : ∃ q, a = 2 ^ k * q :=
    ⟨a / 2 ^ k, (Nat.mul_div_cancel' (Nat.dvd_of_mod_eq_zero ha) ).symm⟩
  exact (Nat.mul_add_lt_is_or hb q).symm

/-- Mask by `0x3F` is reduction mod `64`. -/
theorem and_63 (x : Nat) : x &&& 63 = x % 64 := Nat.and_pow_two_sub_one_eq_mod x 6

/-- Mask by `0x0F` is reduction mod `16`. -/
theorem and_15 (x : Nat) : x &&& 15 = x % 16 := Nat.and_pow_two_sub_one_eq_mod x 4

/-- Mask by `0x07` is reduction mod `8`. -/
theorem and_7 (x : Nat) : x &&& 7 = x % 8 := Nat.and_pow_two_sub_one_eq_mod x 3

/-- Mask by `0x3FF` is reduction mod `1024`. -/
theorem and_1023 (x : Nat) : x &&& 1023 = x % 1024 := Nat.and_pow_two_sub_one_eq_mod x 10

/-! ### MUTF-8 codec (`mutf8.cpp`)

`utf8_to_mutf8` walks its input byte by byte (pass 2 of the C function):
a NUL byte becomes the two bytes `0xC0 0x80`; a byte whose top five bits are
`0xF0` starts a 4-byte sequence, which is decoded to a code point, split into
a surrogate pair and re-emitted as two 3-byte sequences; everything else is
copied through with a step of 1, 2 or 3 determined by the lead byte, the copy
stopping at the end of the input.  The C loop reads the three continuation
bytes of a 4-byte sequence without a bounds check; a truncated tail is
modelled as reading the value 0 for the missing bytes, which does not affect
the byte counts the safety claims are about. -/

/-- The six bytes the encoder emits for a 4-byte UTF-8 sequence
`b1 b2 b3 b4`: the code point is assembled, shifted into a surrogate pair
(`cp -= 0x10000` with `uint32_t` wrap-around), and each surrogate is written
as a 3-byte sequence, exactly as in `mutf8.cpp` lines 73-94. -/
def surrogateBytes (b1 b2 b3 b4 : Nat) : List Nat :=
  let cp := ((b1 &&& 0x07) <<< 18) ||| ((b2 &&& 0x3F) <<< 12) |||
            ((b3 &&& 0x3F) <<< 6) ||| (b4 &&& 0x3F)
  let cp2 := (cp + 0x100000000 - 0x10000) % 0x100000000
  let high := 0xD800 + ((cp2 >>> 10) &&& 0x3FF)
  let low := 0xDC00 + (cp2 &&& 0x3FF)
  [0xE0 ||| ((high >>> 12) &&& 0x0F), 0x80 ||| ((high >>> 6) &&& 0x3F),
   0x80 ||| (high &&& 0x3F),
   0xE0 ||| ((low >>> 12) &&& 0x0F), 0x80 ||| ((low >>> 6) &&& 0x3F),
   0x80 ||| (low &&& 0x3F)]

/-- Pass 2 of `utf8_to_mutf8` (`mutf8.cpp` lines 62-105): the emitted bytes. -/
def utf8_to_mutf8 : List Nat → List Nat
  | [] => []
  | c :: rest =>
    if c = 0 then 0xC0 :: 0x80 :: utf8_to_mutf8 rest
    else if c &&& 0xF8 = 0xF0 then
      match rest with
      | b2 :: b3 :: b4 :: t => surrogateBytes c b2 b3 b4 ++ utf8_to_mutf8 t
      | [b2, b3] => surrogateBytes c b2 b3 0
      | [b2] => surrogateBytes c b2 0 0
      | [] => surrogateBytes c 0 0 0
    else if c &&& 0xE0 = 0xC0 then
      match rest with
      | b2 :: t => c :: b2 :: utf8_to_mutf8 t
      | [] => [c]
    else if c &&& 0xF0 = 0xE0 then
      match rest with
      | b2 :: b3 :: t => c :: b2 :: b3 :: utf8_to_mutf8 t
      | [b2] => [c, b2]
      | [] => [c]
    else c :: utf8_to_mutf8 rest

/-- Pass 1 of `utf8_to_mutf8` (`mutf8.cpp` lines 34-56): the value of
`needed_size` after the counting loop.  For each chunk the count is taken
from the lead byte alone, even when the input ends mid-sequence. -/
def mutf8NeededSize : List Nat → Nat
  | [] => 0
  | c :: rest =>
    if c = 0 then 2 + mutf8NeededSize rest
    else if c &&& 0xF8 = 0xF0 then
      match rest with
      | _b2 :: _b3 :: _b4 :: t => 6 + mutf8NeededSize t
      | [_b2, _b3] => 6
      | [_b2] => 6
      | [] => 6
    else if c &&& 0xE0 = 0xC0 then
      match rest with
      | _b2 :: t => 2 + mutf8NeededSize t
      | [] => 2
    else if c &&& 0xF0 = 0xE0 then
      match rest with
      | _b2 :: _b3 :: t => 3 + mutf8NeededSize t
      | [_b2] => 3
      | [] => 3
    else 1 + mutf8NeededSize rest

/-- The four bytes `mutf8_to_utf8` emits when it recombines a surrogate pair
`x1 x2 x3 x4 x5 x6` (with `x1 = x4 = 0xED` guaranteed by the caller's
pattern match), exactly as in `mutf8.cpp` lines 150-167.  The subtractions
cannot wrap: the guard forces `x2 ≥ 0xA0` and `x5 ≥ 0xB0`, hence
`high ≥ 0xD800` and `low ≥ 0xDC00`. -/
def surrogateDecode (x1 x2 x3 x4 x5 x6 : Nat) : List Nat :=
  let high := ((x1 &&& 0x0F) <<< 12) ||| ((x2 &&& 0x3F) <<< 6) ||| (x3 &&& 0x3F)
  let low := ((x4 &&& 0x0F) <<< 12) ||| ((x5 &&& 0x3F) <<< 6) ||| (x6 &&& 0x3F)
  let cp := 0x10000 + ((high - 0xD800) <<< 10) + (low - 0xDC00)
  [0xF0 ||| ((cp >>> 18) &&& 0x07), 0x80 ||| ((cp >>> 12) &&& 0x3F),
   0x80 ||| ((cp >>> 6) &&& 0x3F), 0x80 ||| (cp &&& 0x3F)]

/-- One iteration of the `mutf8_to_utf8` loop (`mutf8.cpp` lines 136-182) on
lead byte `c` with remaining input `rest`: the pair of the bytes emitted and
the input left over.  Case 1 collapses `0xC0 0x80` to a NUL byte (only when a
second byte exists); case 2 detects a high surrogate `0xED 0xA0..0xAF _`
immediately followed by a low surrogate `0xED 0xB0..0xBF _` with six bytes
available and recombines them; every other byte is copied with a step of 1,
2 or 3 from its lead-byte mask, the copy stopping at the end of the input. -/
def mutf8Step (c : Nat) (rest : List Nat) : List Nat × List Nat :=
  if c = 0xC0 then
    match rest with
    | b2 :: t => if b2 = 0x80 then ([0], t) else ([c, b2], t)
    | [] => ([c], [])
  else if c = 0xED then
    match rest with
    | b2 :: b3 :: b4 :: b5 :: b6 :: t =>
      if 0xA0 ≤ b2 ∧ b2 ≤ 0xAF ∧ b4 = 0xED ∧ 0xB0 ≤ b5 ∧ b5 ≤ 0xBF then
        (surrogateDecode c b2 b3 b4 b5 b6, t)
      else ([c, b2, b3], b4 :: b5 :: b6 :: t)
    | b2 :: b3 :: rest3 => ([c, b2, b3], rest3)
    | [b2] => ([c, b2], [])
    | [] => ([c], [])
  else if c &&& 0xE0 = 0xC0 then
    match rest with
    | b2 :: t => ([c, b2], t)
    | [] => ([c], [])
  else if c &&& 0xF0 = 0xE0 then
    match rest with
    | b2 :: b3 :: t => ([c, b2, b3], t)
    | [b2] => ([c, b2], [])
    | [] => ([c], [])
  else ([c], rest)

/-- Driver for the `mutf8_to_utf8` loop.  Each iteration consumes at least
one input byte, so a fuel equal to the input length (supplied by
`mutf8_to_utf8` below) always suffices; the fuel only makes the recursion
structural. -/
def mutf8Run : Nat → List Nat → List Nat
  | _, [] => []
  | 0, _ :: _ => []
  | fuel + 1, c :: rest => (mutf8Step c rest).1 ++ mutf8Run fuel (mutf8Step c rest).2

/-- `mutf8_to_utf8` (`mutf8.cpp` lines 121-188): the bytes written before the
null terminator. -/
def mutf8_to_utf8 (l : List Nat) : List Nat := mutf8Run l.length l

/-- Each loop iteration consumes at least one byte. -/
theorem mutf8Step_snd_length (c : Nat) (rest : List Nat) :
    (mutf8Step c rest).2.length ≤ rest.length := by
  unfold mutf8Step
  repeat' split
  all_goals simp [surrogateDecode]
  all_goals omega

/-- The emitted bytes of one iteration never outnumber the consumed bytes. -/
theorem mutf8Step_length (c : Nat) (rest : List Nat) :
    (mutf8Step c rest).1.length + (mutf8Step c rest).2.length ≤ rest.length + 1 := by
  unfold mutf8Step
  repeat' split
  all_goals simp [surrogateDecode]
  all_goals omega

/-- The driver's result does not depend on the fuel, as long as the fuel
covers the input length. -/
theorem mutf8Run_fuel (f1 : Nat) (l : List Nat) (f2 : Nat) (h1 : l.length ≤ f1)
    (h2 : l.length ≤ f2) : mutf8Run f1 l = mutf8Run f2 l := by
  induction f1 generalizing l f2 with
  | zero =>
    cases l with
    | nil => cases f2 <;> simp [mutf8Run]
    | cons c rest => simp at h1
  | succ f ih =>
    cases l with
    | nil => cases f2 <;> simp [mutf8Run]
    | cons c rest =>
      cases f2 with
      | zero => simp at h2
      | succ f2 =>
        simp only [mutf8Run]
        have hc := mutf8Step_snd_length c rest
        rw [ih (mutf8Step c rest).2 f2 (by simp at h1; omega) (by simp at h2; omega)]

/-- Unfolding lemma for `mutf8_to_utf8`: one loop iteration at a time. -/
theorem mutf8_to_utf8_cons (c : Nat) (rest : List Nat) :
    mutf8_to_utf8 (c :: rest) =
      (mutf8Step c rest).1 ++ mutf8_to_utf8 (mutf8Step c rest).2 := by
  have hc := mutf8Step_snd_length c rest
  simp only [mutf8_to_utf8, List.length_cons, mutf8Run]
  rw [mutf8Run_fuel rest.length (mutf8Step c rest).2 (mutf8Step c rest).2.length hc
    (Nat.le_refl _)]

set_option maxRecDepth 4000 in
/-- Lead-byte mask facts for ASCII bytes, by exhaustive check. -/
theorem maskFactsAscii : ∀ b : Nat, b < 0x80 →
    ¬b &&& 0xF8 = 0xF0 ∧ ¬b &&& 0xE0 = 0xC0 ∧ ¬b &&& 0xF0 = 0xE0 := by decide

set_option maxRecDepth 4000 in
/-- Lead-byte mask facts for 2-byte lead bytes, by exhaustive check. -/
theorem maskFactsTwo : ∀ b : Nat, b < 0xE0 → 0xC2 ≤ b →
    ¬b &&& 0xF8 = 0xF0 ∧ b &&& 0xE0 = 0xC0 := by decide

set_option maxRecDepth 4000 in
/-- Lead-byte mask facts for 3-byte lead bytes, by exhaustive check. -/
theorem maskFactsThree : ∀ b : Nat, b < 0xF0 → 0xE0 ≤ b →
    ¬b &&& 0xF8 = 0xF0 ∧ ¬b &&& 0xE0 = 0xC0 ∧ b &&& 0xF0 = 0xE0 := by decide

set_option maxRecDepth 4000 in
/-- Lead-byte mask fact for 4-byte lead bytes, by exhaustive check. -/
theorem maskFactsFour : ∀ b : Nat, b < 0xF5 → 0xF0 ≤ b → b &&& 0xF8 = 0xF0 := by decide

/-- Closed arithmetic form of `surrogateBytes` on a well-formed 4-byte
sequence: the lead bytes are `0xED`, the second byte carries `0xA0` plus the
top four bits of the 10-bit high half, respectively `0xB0` plus the top four
bits of the low half, and the third bytes carry the remaining six bits. -/
theorem surrogateBytes_eq (b1 b2 b3 b4 cp : Nat)
    (h1 : 0xF0 ≤ b1) (h2 : b1 ≤ 0xF4) (h3 : 0x80 ≤ b2) (h4 : b2 ≤ 0xBF)
    (h5 : 0x80 ≤ b3) (h6 : b3 ≤ 0xBF) (h7 : 0x80 ≤ b4) (h8 : b4 ≤ 0xBF)
    (h9 : b1 = 0xF0 → 0x90 ≤ b2) (h10 : b1 = 0xF4 → b2 ≤ 0x8F)
    (hcp : cp = (b1 - 0xF0) * 262144 + (b2 - 0x80) * 4096 + (b3 - 0x80) * 64
      + (b4 - 0x80)) :
    surrogateBytes b1 b2 b3 b4 =
      [0xED, 0xA0 + (cp - 0x10000) / 1024 / 64, 0x80 + (cp - 0x10000) / 1024 % 64,
       0xED, 0xB0 + (cp - 0x10000) % 1024 / 64, 0x80 + (cp - 0x10000) % 1024 % 64] := by
  simp only [surrogateBytes, and_7, and_63, and_15, and_1023, Nat.shiftLeft_eq,
    Nat.shiftRight_eq_div_pow]
  rw [lor_eq_add (b1 % 8 * 2 ^ 18) (b2 % 64 * 2 ^ 12) 18 (by omega) (by omega),
    lor_eq_add (b1 % 8 * 2 ^ 18 + b2 % 64 * 2 ^ 12) (b3 % 64 * 2 ^ 6) 12 (by omega)
      (by omega),
    lor_eq_add (b1 % 8 * 2 ^ 18 + b2 % 64 * 2 ^ 12 + b3 % 64 * 2 ^ 6) (b4 % 64) 6
      (by omega) (by omega)]
  rw [(by omega : b1 % 8 * 2 ^ 18 + b2 % 64 * 2 ^ 12 + b3 % 64 * 2 ^ 6 + b4 % 64 = cp)]
  rw [(by omega : (cp + 0x100000000 - 0x10000) % 0x100000000 = cp - 0x10000)]
  rw [(by omega : (cp - 0x10000) / 2 ^ 10 % 1024 = (cp - 0x10000) / 1024)]
  rw [(by omega : (0xD800 + (cp - 0x10000) / 1024) / 2 ^ 12 % 16 = 13)]
  rw [(by omega : (0xD800 + (cp - 0x10000) / 1024) / 2 ^ 6 % 64 =
    0x20 + (cp - 0x10000) / 1024 / 64)]
  rw [(by omega : (0xD800 + (cp - 0x10000) / 1024) % 64 = (cp - 0x10000) / 1024 % 64)]
  rw [(by omega : (0xDC00 + (cp - 0x10000) % 1024) / 2 ^ 12 % 16 = 13)]
  rw [(by omega : (0xDC00 + (cp - 0x10000) % 1024) / 2 ^ 6 % 64 =
    0x30 + (cp - 0x10000) % 1024 / 64)]
  rw [(by omega : (0xDC00 + (cp - 0x10000) % 1024) % 64 = (cp - 0x10000) % 1024 % 64)]
  rw [lor_eq_add 0xE0 13 4 (by omega) (by omega),
    lor_eq_add 0x80 (0x20 + (cp - 0x10000) / 1024 / 64) 6 (by omega) (by omega),
    lor_eq_add 0x80 ((cp - 0x10000) / 1024 % 64) 6 (by omega) (by omega),
    lor_eq_add 0x80 (0x30 + (cp - 0x10000) % 1024 / 64) 6 (by omega) (by omega),
    lor_eq_add 0x80 ((cp - 0x10000) % 1024 % 64) 6 (by omega) (by omega)]
  simp only [List.cons.injEq, true_and, and_true]
  omega

/-- Closed arithmetic form of `surrogateDecode` on bytes satisfying the
decoder's guard, phrased with the recombined code point as a parameter. -/
theorem surrogateDecode_eq (x2 x3 y2 y3 cp : Nat)
    (hx2 : 0xA0 ≤ x2) (hx2b : x2 ≤ 0xAF) (hx3 : 0x80 ≤ x3) (hx3b : x3 ≤ 0xBF)
    (hy2 : 0xB0 ≤ y2) (hy2b : y2 ≤ 0xBF) (hy3 : 0x80 ≤ y3) (hy3b : y3 ≤ 0xBF)
    (hcp : cp = 0x10000 + ((x2 - 0xA0) * 64 + (x3 - 0x80)) * 1024
      + ((y2 - 0xB0) * 64 + (y3 - 0x80))) :
    surrogateDecode 0xED x2 x3 0xED y2 y3 =
      [0xF0 + cp / 262144, 0x80 + cp / 4096 % 64, 0x80 + cp / 64 % 64,
       0x80 + cp % 64] := by
  simp only [surrogateDecode, and_7, and_63, and_15, and_1023, Nat.shiftLeft_eq,
    Nat.shiftRight_eq_div_pow]
  rw [lor_eq_add (237 % 16 * 2 ^ 12) (x2 % 64 * 2 ^ 6) 12 (by omega) (by omega),
    lor_eq_add (237 % 16 * 2 ^ 12 + x2 % 64 * 2 ^ 6) (x3 % 64) 6 (by omega)
      (by omega),
    lor_eq_add (237 % 16 * 2 ^ 12) (y2 % 64 * 2 ^ 6) 12 (by omega) (by omega),
    lor_eq_add (237 % 16 * 2 ^ 12 + y2 % 64 * 2 ^ 6) (y3 % 64) 6 (by omega)
      (by omega)]
  rw [(by omega : 0x10000 + (237 % 16 * 2 ^ 12 + x2 % 64 * 2 ^ 6 + x3 % 64
      - 0xD800) * 2 ^ 10 + (237 % 16 * 2 ^ 12 + y2 % 64 * 2 ^ 6 + y3 % 64
      - 0xDC00) = cp)]
  rw [(by omega : cp / 2 ^ 18 % 8 = cp / 262144)]
  rw [(by omega : cp / 2 ^ 12 % 64 = cp / 4096 % 64)]
  rw [(by omega : cp / 2 ^ 6 % 64 = cp / 64 % 64)]
  rw [lor_eq_add 0xF0 (cp / 262144) 3 (by omega) (by omega),
    lor_eq_add 0x80 (cp / 4096 % 64) 6 (by omega) (by omega),
    lor_eq_add 0x80 (cp / 64 % 64) 6 (by omega) (by omega),
    lor_eq_add 0x80 (cp % 64) 6 (by omega) (by omega)]

/-- Chunk lemma: the encoder on a NUL byte. -/
theorem enc_zero (t : List Nat) :
    utf8_to_mutf8 (0 :: t) = 0xC0 :: 0x80 :: utf8_to_mutf8 t := by
  rw [utf8_to_mutf8.eq_def]
  simp

/-- Chunk lemma: the encoder on a non-NUL ASCII byte. -/
theorem enc_ascii (b : Nat) (t : List Nat) (h : b < 0x80) (h0 : b ≠ 0) :
    utf8_to_mutf8 (b :: t) = b :: utf8_to_mutf8 t := by
  obtain ⟨m1, m2, m3⟩ := maskFactsAscii b h
  rw [utf8_to_mutf8.eq_def]
  simp only []
  rw [if_neg h0, if_neg m1, if_neg m2, if_neg m3]

/-- Chunk lemma: the encoder on a 2-byte sequence. -/
theorem enc_two (b1 b2 : Nat) (t : List Nat) (h1 : 0xC2 ≤ b1) (h2 : b1 ≤ 0xDF) :
    utf8_to_mutf8 (b1 :: b2 :: t) = b1 :: b2 :: utf8_to_mutf8 t := by
  obtain ⟨m1, m2⟩ := maskFactsTwo b1 (by omega) h1
  rw [utf8_to_mutf8.eq_def]
  simp only []
  rw [if_neg (by omega : ¬b1 = 0), if_neg m1, if_pos m2]

/-- Chunk lemma: the encoder on a 3-byte sequence. -/
theorem enc_three (b1 b2 b3 : Nat) (t : List Nat) (h1 : 0xE0 ≤ b1) (h2 : b1 ≤ 0xEF) :
    utf8_to_mutf8 (b1 :: b2 :: b3 :: t) = b1 :: b2 :: b3 :: utf8_to_mutf8 t := by
  obtain ⟨m1, m2, m3⟩ := maskFactsThree b1 (by omega) h1
  rw [utf8_to_mutf8.eq_def]
  simp only []
  rw [if_neg (by omega : ¬b1 = 0), if_neg m1, if_neg m2, if_pos m3]

/-- Chunk lemma: the encoder on a 4-byte sequence. -/
theorem enc_four (b1 b2 b3 b4 : Nat) (t : List Nat) (h1 : 0xF0 ≤ b1) (h2 : b1 ≤ 0xF4) :
    utf8_to_mutf8 (b1 :: b2 :: b3 :: b4 :: t) =
      surrogateBytes b1 b2 b3 b4 ++ utf8_to_mutf8 t := by
  have m1 := maskFactsFour b1 (by omega) h1
  rw [utf8_to_mutf8.eq_def]
  simp only []
  rw [if_neg (by omega : ¬b1 = 0), if_pos m1]

/-- Chunk lemma: the decoder on the NUL encoding `0xC0 0x80`. -/
theorem dec_zero (t : List Nat) :
    mutf8_to_utf8 (0xC0 :: 0x80 :: t) = 0 :: mutf8_to_utf8 t := by
  rw [mutf8_to_utf8_cons]
  simp [mutf8Step]

/-- Chunk lemma: the decoder copies an ASCII byte through. -/
theorem dec_ascii (b : Nat) (t : List Nat) (h : b < 0x80) :
    mutf8_to_utf8 (b :: t) = b :: mutf8_to_utf8 t := by
  obtain ⟨m1, m2, m3⟩ := maskFactsAscii b h
  rw [mutf8_to_utf8_cons]
  simp only [mutf8Step]
  rw [if_neg (by omega : ¬b = 0xC0), if_neg (by omega : ¬b = 0xED), if_neg m2,
    if_neg m3]
  simp

/-- Chunk lemma: the decoder copies a 2-byte sequence through. -/
theorem dec_two (b1 b2 : Nat) (t : List Nat) (h1 : 0xC2 ≤ b1) (h2 : b1 ≤ 0xDF) :
    mutf8_to_utf8 (b1 :: b2 :: t) = b1 :: b2 :: mutf8_to_utf8 t := by
  obtain ⟨m1, m2⟩ := maskFactsTwo b1 (by omega) h1
  rw [mutf8_to_utf8_cons]
  simp only [mutf8Step]
  rw [if_neg (by omega : ¬b1 = 0xC0), if_neg (by omega : ¬b1 = 0xED), if_pos m2]
  simp

/-- Chunk lemma: the decoder copies a valid non-surrogate 3-byte sequence
through.  A high-surrogate pattern is excluded by `hs`, which a valid UTF-8
3-byte sequence satisfies. -/
theorem dec_three (b1 b2 b3 : Nat) (t : List Nat) (h1 : 0xE0 ≤ b1) (h2 : b1 ≤ 0xEF)
    (hs : b1 = 0xED → b2 ≤ 0x9F) :
    mutf8_to_utf8 (b1 :: b2 :: b3 :: t) = b1 :: b2 :: b3 :: mutf8_to_utf8 t := by
  obtain ⟨m1, m2, m3⟩ := maskFactsThree b1 (by omega) h1
  rw [mutf8_to_utf8_cons]
  by_cases he : b1 = 0xED
  · have hb2 := hs he
    subst he
    match t with
    | [] => simp [mutf8Step, mutf8_to_utf8, mutf8Run]
    | [c1] => simp [mutf8Step, mutf8_to_utf8, mutf8Run]
    | [c1, c2] => simp [mutf8Step, mutf8_to_utf8, mutf8Run]
    | c1 :: c2 :: c3 :: t2 =>
      simp only [mutf8Step]
      rw [if_neg (by omega : ¬(237:Nat) = 0xC0), if_pos trivial,
        if_neg (by omega : ¬(160 ≤ b2 ∧ b2 ≤ 175 ∧ c1 = 237 ∧ 176 ≤ c2 ∧ c2 ≤ 191))]
      simp
  · simp only [mutf8Step]
    rw [if_neg (by omega : ¬b1 = 0xC0), if_neg he, if_neg m2, if_pos m3]
    simp

/-- Chunk lemma: the decoder recombines an encoded surrogate pair. -/
theorem dec_surrogate (x2 x3 y2 y3 : Nat) (u : List Nat)
    (hx2 : 0xA0 ≤ x2) (hx2b : x2 ≤ 0xAF) (hy2 : 0xB0 ≤ y2) (hy2b : y2 ≤ 0xBF) :
    mutf8_to_utf8 (0xED :: x2 :: x3 :: 0xED :: y2 :: y3 :: u) =
      surrogateDecode 0xED x2 x3 0xED y2 y3 ++ mutf8_to_utf8 u := by
  rw [mutf8_to_utf8_cons]
  simp [mutf8Step, hx2, hx2b, hy2, hy2b]

/-- Well-formed (RFC 3629) UTF-8 byte sequences: ASCII bytes, and 2-, 3- and
4-byte sequences with continuation bytes in `0x80..0xBF`, excluding overlong
encodings, surrogate code points and code points above `U+10FFFF`. -/
inductive Utf8Valid : List Nat → Prop
  | nil : Utf8Valid []
  | ascii {b : Nat} {rest : List Nat} :
      b < 0x80 → Utf8Valid rest → Utf8Valid (b :: rest)
  | two {b1 b2 : Nat} {rest : List Nat} :
      0xC2 ≤ b1 → b1 ≤ 0xDF → 0x80 ≤ b2 → b2 ≤ 0xBF →
      Utf8Valid rest → Utf8Valid (b1 :: b2 :: rest)
  | three {b1 b2 b3 : Nat} {rest : List Nat} :
      0xE0 ≤ b1 → b1 ≤ 0xEF → 0x80 ≤ b2 → b2 ≤ 0xBF → 0x80 ≤ b3 → b3 ≤ 0xBF →
      (b1 = 0xE0 → 0xA0 ≤ b2) → (b1 = 0xED → b2 ≤ 0x9F) →
      Utf8Valid rest → Utf8Valid (b1 :: b2 :: b3 :: rest)
  | four {b1 b2 b3 b4 : Nat} {rest : List Nat} :
      0xF0 ≤ b1 → b1 ≤ 0xF4 → 0x80 ≤ b2 → b2 ≤ 0xBF → 0x80 ≤ b3 → b3 ≤ 0xBF →
      0x80 ≤ b4 → b4 ≤ 0xBF →
      (b1 = 0xF0 → 0x90 ≤ b2) → (b1 = 0xF4 → b2 ≤ 0x8F) →
      Utf8Valid rest → Utf8Valid (b1 :: b2 :: b3 :: b4 :: rest)

/-- Round trip of a single encoded 4-byte sequence followed by arbitrary
encoder output. -/
theorem roundtrip_four_bytes (b1 b2 b3 b4 : Nat) (u : List Nat)
    (h1 : 0xF0 ≤ b1) (h2 : b1 ≤ 0xF4) (h3 : 0x80 ≤ b2) (h4 : b2 ≤ 0xBF)
    (h5 : 0x80 ≤ b3) (h6 : b3 ≤ 0xBF) (h7 : 0x80 ≤ b4) (h8 : b4 ≤ 0xBF)
    (h9 : b1 = 0xF0 → 0x90 ≤ b2) (h10 : b1 = 0xF4 → b2 ≤ 0x8F) :
    mutf8_to_utf8 (surrogateBytes b1 b2 b3 b4 ++ u) =
      b1 :: b2 :: b3 :: b4 :: mutf8_to_utf8 u := by
  set cp := (b1 - 0xF0) * 262144 + (b2 - 0x80) * 4096 + (b3 - 0x80) * 64
    + (b4 - 0x80) with hcp
  rw [surrogateBytes_eq b1 b2 b3 b4 cp h1 h2 h3 h4 h5 h6 h7 h8 h9 h10 hcp]
  simp only [List.cons_append, List.nil_append]
  rw [dec_surrogate (0xA0 + (cp - 0x10000) / 1024 / 64)
    (0x80 + (cp - 0x10000) / 1024 % 64) (0xB0 + (cp - 0x10000) % 1024 / 64)
    (0x80 + (cp - 0x10000) % 1024 % 64) u (by omega) (by omega) (by omega)
    (by omega)]
  rw [surrogateDecode_eq (0xA0 + (cp - 0x10000) / 1024 / 64)
    (0x80 + (cp - 0x10000) / 1024 % 64) (0xB0 + (cp - 0x10000) % 1024 / 64)
    (0x80 + (cp - 0x10000) % 1024 % 64) cp (by omega) (by omega) (by omega)
    (by omega) (by omega) (by omega) (by omega) (by omega) (by omega)]
  simp only [List.cons_append, List.nil_append, List.cons.injEq, and_true, true_and]
  omega

/-- Auxiliary strong induction for the decoder length bound. -/
theorem dec_length_le_aux :
    ∀ (n : Nat) (l : List Nat), l.length ≤ n →
      (mutf8_to_utf8 l).length ≤ l.length := by
  intro n
  induction n with
  | zero =>
    intro l hl
    match l with
    | [] => simp [mutf8_to_utf8, mutf8Run]
    | c :: rest => simp at hl
  | succ n ih =>
    intro l hl
    match l with
    | [] => simp [mutf8_to_utf8, mutf8Run]
    | c :: rest =>
      rw [mutf8_to_utf8_cons]
      have hs1 := mutf8Step_length c rest
      have hs2 := mutf8Step_snd_length c rest
      have ih2 := ih (mutf8Step c rest).2 (by simp at hl; omega)
      simp only [List.length_append, List.length_cons]
      omega

set_option maxHeartbeats 2000000 in
/-- Auxiliary strong induction for the encoder length bound. -/
theorem enc_length_le_aux :
    ∀ (n : Nat) (l : List Nat), l.length ≤ n →
      (utf8_to_mutf8 l).length ≤ mutf8NeededSize l := by
  intro n
  induction n with
  | zero =>
    intro l hl
    match l with
    | [] => decide
    | c :: rest => simp at hl
  | succ n ih =>
    intro l hl
    match l with
    | [] => decide
    | c :: rest =>
      have hrest : rest.length ≤ n := by simp at hl; omega
      rw [utf8_to_mutf8.eq_def, mutf8NeededSize.eq_def]
      simp only []
      by_cases h0 : c = 0
      · rw [if_pos h0, if_pos h0]
        have := ih rest hrest
        simp only [List.length_cons]
        omega
      · rw [if_neg h0, if_neg h0]
        by_cases hf : c &&& 0xF8 = 0xF0
        · rw [if_pos hf, if_pos hf]
          match rest with
          | b2 :: b3 :: b4 :: t =>
            have := ih t (by simp at hrest; omega)
            simp only [surrogateBytes, List.length_append, List.length_cons,
              List.length_nil]
            omega
          | [b2, b3] =>
            simp only [surrogateBytes, List.length_cons, List.length_nil]
            omega
          | [b2] =>
            simp only [surrogateBytes, List.length_cons, List.length_nil]
            omega
          | [] =>
            simp only [surrogateBytes, List.length_cons, List.length_nil]
            omega
        · rw [if_neg hf, if_neg hf]
          by_cases he : c &&& 0xE0 = 0xC0
          · rw [if_pos he, if_pos he]
            match rest with
            | b2 :: t =>
              have := ih t (by simp at hrest; omega)
              simp only [List.length_cons]
              omega
            | [] => simp
          · rw [if_neg he, if_neg he]
            by_cases h3 : c &&& 0xF0 = 0xE0
            · rw [if_pos h3, if_pos h3]
              match rest with
              | b2 :: b3 :: t =>
                have := ih t (by simp at hrest; omega)
                simp only [List.length_cons]
                omega
              | [b2] => simp
              | [] => simp
            · rw [if_neg h3, if_neg h3]
              have := ih rest hrest
              simp only [List.length_cons]
              omega

/-- C1: for every valid UTF-8 byte sequence `s`, decoding the encoding gives
back exactly `s`: `fromHostEncoding(toHostEncoding(s)) = s`. -/
theorem utf8_roundtrip (s : List Nat) (h : Utf8Valid s) :
    mutf8_to_utf8 (utf8_to_mutf8 s) = s := by
  induction h with
  | nil => rfl
  | @ascii b rest hb hrest ih =>
    by_cases h0 : b = 0
    · subst h0
      rw [enc_zero, dec_zero, ih]
    · rw [enc_ascii b _ hb h0, dec_ascii b _ hb, ih]
  | @two b1 b2 rest h1 h2 h3 h4 hrest ih =>
    rw [enc_two b1 b2 _ h1 h2, dec_two b1 b2 _ h1 h2, ih]
  | @three b1 b2 b3 rest h1 h2 h3 h4 h5 h6 h7 h8 hrest ih =>
    rw [enc_three b1 b2 b3 _ h1 h2, dec_three b1 b2 b3 _ h1 h2 h8, ih]
  | @four b1 b2 b3 b4 rest h1 h2 h3 h4 h5 h6 h7 h8 h9 h10 hrest ih =>
    rw [enc_four b1 b2 b3 b4 _ h1 h2,
      roundtrip_four_bytes b1 b2 b3 b4 _ h1 h2 h3 h4 h5 h6 h7 h8 h9 h10, ih]

/-- Witness for C1 at the concrete valid UTF-8 input
`"A" NUL "é" "€" U+1F600`. -/
theorem utf8_roundtrip_witness :
    mutf8_to_utf8 (utf8_to_mutf8
        [0x41, 0x00, 0xC3, 0xA9, 0xE2, 0x82, 0xAC, 0xF0, 0x9F, 0x98, 0x80]) =
      [0x41, 0x00, 0xC3, 0xA9, 0xE2, 0x82, 0xAC, 0xF0, 0x9F, 0x98, 0x80] :=
  utf8_roundtrip _
    (Utf8Valid.ascii (by omega)
      (Utf8Valid.ascii (by omega)
        (Utf8Valid.two (by omega) (by omega) (by omega) (by omega)
          (Utf8Valid.three (by omega) (by omega) (by omega) (by omega) (by omega)
            (by omega) (fun hc => by omega) (fun hc => by omega)
            (Utf8Valid.four (by omega) (by omega) (by omega) (by omega) (by omega)
              (by omega) (by omega) (by omega) (fun hc => by omega)
              (fun hc => by omega) Utf8Valid.nil)))))

/-- The standard 3-byte UTF-8-shaped encoding of a 16-bit value, used to
state what "two 3-byte surrogate sequences" means in the specification. -/
def utf8Three (u : Nat) : List Nat :=
  [0xE0 + u / 4096 % 16, 0x80 + u / 64 % 64, 0x80 + u % 64]

/-- The scalar value denoted by a 4-byte UTF-8 sequence, per the standard
interpretation the specification appeals to. -/
def utf8CodepointOfFour (b1 b2 b3 b4 : Nat) : Nat :=
  (b1 - 0xF0) * 262144 + (b2 - 0x80) * 4096 + (b3 - 0x80) * 64 + (b4 - 0x80)

/-- C6: the host-encoding transform maps every valid 4-byte UTF-8 sequence to
exactly the two 3-byte sequences encoding the high and the low surrogate of
its code point, and the inverse transform recombines them back into the same
4-byte sequence. -/
theorem fourbyte_surrogate_pair (b1 b2 b3 b4 : Nat)
    (h1 : 0xF0 ≤ b1) (h2 : b1 ≤ 0xF4) (h3 : 0x80 ≤ b2) (h4 : b2 ≤ 0xBF)
    (h5 : 0x80 ≤ b3) (h6 : b3 ≤ 0xBF) (h7 : 0x80 ≤ b4) (h8 : b4 ≤ 0xBF)
    (h9 : b1 = 0xF0 → 0x90 ≤ b2) (h10 : b1 = 0xF4 → b2 ≤ 0x8F) :
    utf8_to_mutf8 [b1, b2, b3, b4] =
      utf8Three (0xD800 + (utf8CodepointOfFour b1 b2 b3 b4 - 0x10000) / 1024) ++
        utf8Three (0xDC00 + (utf8CodepointOfFour b1 b2 b3 b4 - 0x10000) % 1024) ∧
      mutf8_to_utf8 (utf8_to_mutf8 [b1, b2, b3, b4]) = [b1, b2, b3, b4] := by
  have henc : utf8_to_mutf8 [b1, b2, b3, b4] = surrogateBytes b1 b2 b3 b4 ++ [] :=
    enc_four b1 b2 b3 b4 [] h1 h2
  constructor
  · rw [henc, surrogateBytes_eq b1 b2 b3 b4 (utf8CodepointOfFour b1 b2 b3 b4)
      h1 h2 h3 h4 h5 h6 h7 h8 h9 h10 rfl]
    simp only [utf8Three, utf8CodepointOfFour, List.append_nil, List.cons_append,
      List.nil_append, List.cons.injEq, and_true, true_and]
    omega
  · rw [henc, roundtrip_four_bytes b1 b2 b3 b4 [] h1 h2 h3 h4 h5 h6 h7 h8 h9 h10]
    rfl

/-- Witness for C6 at U+1F600 (`F0 9F 98 80`, surrogates `D83D DE00`). -/
theorem fourbyte_surrogate_pair_witness :
    utf8_to_mutf8 [0xF0, 0x9F, 0x98, 0x80] =
      utf8Three (0xD800 + (utf8CodepointOfFour 0xF0 0x9F 0x98 0x80 - 0x10000) / 1024) ++
        utf8Three (0xDC00 + (utf8CodepointOfFour 0xF0 0x9F 0x98 0x80 - 0x10000) % 1024) ∧
      mutf8_to_utf8 (utf8_to_mutf8 [0xF0, 0x9F, 0x98, 0x80]) =
        [0xF0, 0x9F, 0x98, 0x80] :=
  fourbyte_surrogate_pair 0xF0 0x9F 0x98 0x80 (by omega) (by omega) (by omega)
    (by omega) (by omega) (by omega) (by omega) (by omega) (fun hc => by omega)
    (fun hc => by omega)

/-- C7: on every input, of any byte content, the inverse transform emits at
most as many bytes as it consumes, so a `len + 1` buffer (output plus null
terminator) is always sufficient. -/
theorem mutf8_to_utf8_length_le (l : List Nat) :
    (mutf8_to_utf8 l).length ≤ l.length :=
  dec_length_le_aux l.length l (Nat.le_refl _)

/-- C10: on every input, of any byte content, pass 2 of the encoder writes at
most `needed_size` bytes as computed by pass 1, so the allocation of
`needed_size + 1` bytes always has room for the output and the null
terminator. -/
theorem utf8_to_mutf8_length_le_needed (l : List Nat) :
    (utf8_to_mutf8 l).length ≤ mutf8NeededSize l :=
  enc_length_le_aux l.length l (Nat.le_refl _)

/-! ### Terminal bridge (`Terminal.cpp`, `Terminal.h`)

The bridge sits between the external libvterm engine and the JNI host.  The
engine (out of scope of the repository) is represented by the data it hands
the bridge: screen cells, callback events and return values of engine calls;
the JNI plumbing (method-ID lookups, `GetEnv`) is represented by booleans
recording whether a lookup succeeded at construction.  `int` values that can
be negative (`mRows`, `mCols`, row/column arguments, return codes) are
modelled as `Int`. -/

/-- An RGB triple (`VTermColor`'s resolved form, each channel a `uint8_t`). -/
structure RGB where
  red : Nat
  green : Nat
  blue : Nat
deriving DecidableEq, Repr

/-- A `VTermColor`: indexed, direct RGB, or one of the default tags (the
`memcmp`-based style comparison only needs decidable equality). -/
inductive VColor where
  | indexed (idx : Nat)
  | rgb (c : RGB)
  | defaultFg
  | defaultBg
deriving DecidableEq, Repr

/-- The attribute bitfield of a `VTermScreenCell` (`cell.attrs`). -/
structure VAttrs where
  bold : Bool
  underline : Nat
  italic : Bool
  blink : Bool
  reverse : Bool
  strike : Bool
  font : Nat
  dwl : Bool
  dhl : Nat
deriving DecidableEq, Repr

/-- A `VTermScreenCell` as the engine hands it to the bridge.  `chars` models
the zero-terminated `uint32_t chars[VTERM_MAX_CHARS_PER_CELL]` array
(`VTERM_MAX_CHARS_PER_CELL = 6`); reading code walks it until a zero entry or
six entries, which `cellCodepoints` below reproduces. -/
structure VCell where
  chars : List Nat
  width : Nat
  fg : VColor
  bg : VColor
  attrs : VAttrs
deriving DecidableEq, Repr

/-- `Terminal::cellStyleEqual` (`Terminal.cpp` lines 983-995): fg, bg and
every attribute must match; cell content and width are not compared. -/
def cellStyleEqual (a b : VCell) : Bool :=
  a.fg == b.fg && a.bg == b.bg &&
  a.attrs.bold == b.attrs.bold &&
  a.attrs.underline == b.attrs.underline &&
  a.attrs.italic == b.attrs.italic &&
  a.attrs.blink == b.attrs.blink &&
  a.attrs.reverse == b.attrs.reverse &&
  a.attrs.strike == b.attrs.strike &&
  a.attrs.font == b.attrs.font &&
  a.attrs.dwl == b.attrs.dwl &&
  a.attrs.dhl == b.attrs.dhl

/-- The codepoints the C loops read from a cell's `chars` array: entries
until the first zero, at most `VTERM_MAX_CHARS_PER_CELL = 6` of them. -/
def cellCodepoints (cs : List Nat) : List Nat :=
  (cs.take 6).takeWhile fun c => c ≠ 0

/-- UTF-32 to UTF-16 conversion of one codepoint, as in `Terminal.cpp` lines
438-449: a BMP codepoint is one `jchar`; anything above `U+FFFF` becomes a
surrogate pair (the `(jchar)` casts truncate mod `2 ^ 16`). -/
def utf16units (cp : Nat) : List Nat :=
  if cp ≤ 0xFFFF then [cp]
  else [(0xD800 + ((cp - 0x10000) >>> 10)) % 65536,
        (0xDC00 + ((cp - 0x10000) &&& 0x3FF)) % 65536]

/-- The code units one scanned cell contributes to a run (`Terminal.cpp`
lines 432-450): an empty cell (`chars[0] == 0`) contributes one space;
otherwise every stored codepoint, surrogate-expanded. -/
def cellUnits (cs : List Nat) : List Nat :=
  if cs.getD 0 0 = 0 then [0x20]
  else (cellCodepoints cs).flatMap utf16units

/-- The column scan of `Terminal::getCellRun` (`Terminal.cpp` lines 422-456)
over the row cells from the start column on: the loop runs while cells and
the 256-unit capacity remain (`runLength < 256` checked before each cell),
stops at the first cell whose style differs from the reference cell `ref`
(never the first cell), appends the cell's code units, and advances by two
columns for a width-2 cell so its placeholder is never inspected. -/
def runScan (ref : VCell) : List VCell → Bool → List Nat → List Nat
  | [], _, acc => acc
  | cell :: rest, first, acc =>
    if acc.length < 256 then
      if first = false ∧ cellStyleEqual ref cell = false then acc
      else
        let acc2 := acc ++ cellUnits cell.chars
        if cell.width = 2 then
          match rest with
          | [] => acc2
          | _ :: t => runScan ref t false acc2
        else runScan ref rest false acc2
    else acc

/-- A host damage notification, as `Terminal::invokeDamage` reports it:
`damage(startRow, endRow, startCol, endCol)` with exclusive end bounds. -/
inductive Notification where
  | damage (startRow endRow startCol endCol : Int)
deriving DecidableEq, Repr

/-- The bridge-visible state of a `Terminal` session.  `mVt` records whether
`vterm_new` succeeded in the constructor; the member is assigned before the
early return (`Terminal.cpp` lines 171-175), so `if (!mVt)` guards are
reliable on every session.  `mVts` records the runtime truthiness of the
`mVts` member: on a successful construction it is set to the (non-null)
screen at line 183, so `mVt = true` implies `mVts = true`; but on the
failure path the constructor returns before that assignment and the member
has no initializer (`Terminal.h` line 77), so its value is indeterminate —
the model therefore carries it as an unconstrained `Bool`, and nothing may
assume it is `false` just because `mVt` is.  `mDamageMethod` records whether
the `damage` method ID lookup succeeded at construction.  `statePalette` and
`stateDefaultFg/Bg` model the engine-held palette and default colors the
bridge mutates through `vterm_state_set_palette_color` /
`vterm_state_set_default_colors`. -/
structure Session where
  mVt : Bool
  mVts : Bool
  mDamageMethod : Bool
  mRows : Int
  mCols : Int
  statePalette : List RGB
  stateDefaultFg : RGB
  stateDefaultBg : RGB
deriving DecidableEq, Repr

/-- `Terminal::invokeDamage` (`Terminal.cpp` lines 566-577): if the `damage`
method ID was not found at construction the call silently returns without
notifying; otherwise one damage notification is delivered.  (Acquiring the
JNI environment is host-runtime plumbing and is assumed to succeed.) -/
def invokeDamage (s : Session) (startRow endRow startCol endCol : Int) :
    List Notification :=
  if s.mDamageMethod = false then []
  else [Notification.damage startRow endRow startCol endCol]

/-- `Terminal::writeInput` (`Terminal.cpp` lines 268-283).  On a session
whose engine failed to construct it returns 0 without doing anything; on a
live session the engine consumes the bytes and fires its damage callbacks
synchronously during the flush — the engine's behaviour is external, so its
result and the notifications it emits are parameters. -/
def writeInput (s : Session) (data : List Nat) (engineWritten : Int)
    (engineNotifs : List Notification) : Session × Int × List Notification :=
  if s.mVt = false then (s, 0, [])
  else (s, engineWritten, engineNotifs)

/-- `Terminal::resize` (`Terminal.cpp` lines 286-298): the stored dimensions
are updated before the engine check, so they change even on a session whose
engine failed to construct; the engine resize and flush run only when the
engine exists. -/
def resize (s : Session) (rows cols : Int) (engineNotifs : List Notification) :
    Session × Int × List Notification :=
  let s2 := { s with mRows := rows, mCols := cols }
  if s2.mVt = false then (s2, 0, [])
  else (s2, 0, engineNotifs)

/-- `Terminal::dispatchKey` (`Terminal.cpp` lines 373-387): false on an
uninitialized session, otherwise the key goes to the engine and the call
returns true.  The raw-output bytes the engine produces are external. -/
def dispatchKey (s : Session) (modifiers key : Int) : Session × Bool :=
  if s.mVt = false then (s, false)
  else (s, true)

/-- `Terminal::dispatchCharacter` (`Terminal.cpp` lines 389-403). -/
def dispatchCharacter (s : Session) (modifiers codepoint : Int) : Session × Bool :=
  if s.mVt = false then (s, false)
  else (s, true)

/-- `Terminal::reset` (`Terminal.cpp` lines 220-231): a no-op when the
`mVts` member reads as null; otherwise `vterm_screen_reset` runs and its callbacks
(external) fire.  The guard tests the `mVts` member, which on a
failed-construction session was never assigned, so the no-op branch is
reliable only on live sessions. -/
def reset (s : Session) (engineNotifs : List Notification) :
    Session × List Notification :=
  if s.mVts = false then (s, [])
  else (s, engineNotifs)

/-- ARGB (`0xAARRGGBB`) to RGB extraction, as `setPaletteColors` and
`setDefaultColors` pass channels to `vterm_color_rgb`. -/
def argbToRgb (c : Nat) : RGB :=
  ⟨(c >>> 16) &&& 0xFF, (c >>> 8) &&& 0xFF, c &&& 0xFF⟩

/-- `Terminal::setPaletteColors` (`Terminal.cpp` lines 301-334): -1 on an
uninitialized session; otherwise the first `min count 16` palette slots are
set from the ARGB array (reads past the supplied list give 0, matching the
caller's contract that `colors` has at least `count` entries), one full-grid
damage notification is triggered, and `min count 16` is returned. -/
def setPaletteColors (s : Session) (colors : List Nat) (count : Int) :
    Session × Int × List Notification :=
  if s.mVt = false then (s, -1, [])
  else
    let colorCount := min count 16
    let s2 := { s with
      statePalette := s.statePalette.mapIdx fun i c =>
        if (i : Int) < colorCount then argbToRgb (colors.getD i 0) else c }
    (s2, colorCount, invokeDamage s2 0 s2.mRows 0 s2.mCols)

/-- `Terminal::setDefaultColors` (`Terminal.cpp` lines 336-370): -1 on an
uninitialized session; otherwise both default colors are set from ARGB and
one full-grid damage notification is triggered. -/
def setDefaultColors (s : Session) (fgColor bgColor : Nat) :
    Session × Int × List Notification :=
  if s.mVt = false then (s, -1, [])
  else
    let s2 := { s with
      stateDefaultFg := argbToRgb fgColor,
      stateDefaultBg := argbToRgb bgColor }
    (s2, 0, invokeDamage s2 0 s2.mRows 0 s2.mCols)

/-- `Terminal::getCellRun` (`Terminal.cpp` lines 406-507), reduced to the
returned `runLength`.  `screen` is the engine's grid (a list of rows, each a
list of cells) that `vterm_screen_get_cell` reads.  Returns 0 when the
`mVts` member reads as null or `(row, col)` is out of range; otherwise the
run scan starts at the reference cell `(row, col)`.  The guard tests the
`mVts` member (line 409), which on a failed-construction session was never
assigned, so the zero-result branch is reliable only on live sessions. -/
def getCellRun (s : Session) (screen : List (List VCell)) (row col : Int) : Nat :=
  if s.mVts = false ∨ row < 0 ∨ s.mRows ≤ row ∨ col < 0 ∨ s.mCols ≤ col then 0
  else
    match (screen.getD row.toNat []).drop col.toNat with
    | [] => 0
    | ref :: restCells => (runScan ref (ref :: restCells) true []).length

/-- A host-side `ScreenCell` as `invokePushScrollbackLine` constructs it:
primary `jchar`, combining code units, the five transferred style flags and
the width.  (The resolved RGB colors are also marshalled by the C code; they
pass through `resolveColor`, which consults engine state outside the claims
about entry structure, and are omitted from the model.) -/
structure PushedCell where
  primary : Nat
  combining : List Nat
  bold : Bool
  italic : Bool
  underline : Nat
  reverse : Bool
  strike : Bool
  width : Nat
deriving DecidableEq, Repr

/-- Conversion of one engine cell to a host `ScreenCell` (`Terminal.cpp`
lines 705-777): an empty cell gives a space with no combining list; a BMP
primary is stored directly, a supplementary primary is stored as its high
surrogate with the low surrogate prepended to the combining list; combining
codepoints are appended surrogate-expanded. -/
def toPushedCell (cell : VCell) : PushedCell :=
  match cellCodepoints cell.chars with
  | [] =>
    { primary := 0x20, combining := [], bold := cell.attrs.bold,
      italic := cell.attrs.italic, underline := cell.attrs.underline,
      reverse := cell.attrs.reverse, strike := cell.attrs.strike,
      width := cell.width }
  | cp0 :: combs =>
    let primary := if cp0 ≤ 0xFFFF then cp0
      else (0xD800 + ((cp0 - 0x10000) >>> 10)) % 65536
    let lowPart : List Nat := if cp0 ≤ 0xFFFF then []
      else [(0xDC00 + ((cp0 - 0x10000) &&& 0x3FF)) % 65536]
    { primary := primary, combining := lowPart ++ combs.flatMap utf16units,
      bold := cell.attrs.bold, italic := cell.attrs.italic,
      underline := cell.attrs.underline, reverse := cell.attrs.reverse,
      strike := cell.attrs.strike, width := cell.width }

/-- The entry list `Terminal::invokePushScrollbackLine` (`Terminal.cpp` lines
689-802) builds for a pushed row: one `ScreenCell` per iterated cell, and the
loop skips the column after a width-2 cell (`i++` at line 785), so a wide
cell's trailing placeholder never produces an entry. -/
def invokePushScrollbackLine : List VCell → List PushedCell
  | [] => []
  | cell :: rest =>
    toPushedCell cell ::
      (if cell.width = 2 then
        match rest with
        | [] => []
        | _ :: t => invokePushScrollbackLine t
      else invokePushScrollbackLine rest)

/-- The number of placeholder columns in a row: cells that directly follow a
width-2 cell (the trailing placeholder of every wide cell), not counting a
wide cell in the last column, which has no placeholder. -/
def placeholderCount : List VCell → Nat
  | [] => 0
  | a :: rest =>
    match rest with
    | [] => 0
    | _ :: _ => (if a.width = 2 then 1 else 0) + placeholderCount rest

/-- Row well-formedness for the placeholder count: a placeholder is itself
never width 2, i.e. no two adjacent cells are both wide. -/
def noAdjacentWide : List VCell → Bool
  | [] => true
  | a :: rest =>
    match rest with
    | [] => true
    | b :: _ => !(a.width == 2 && b.width == 2) && noAdjacentWide rest

/-- A host-side `ScreenCell` as `invokePopScrollbackLine` reads it back:
the fields the C code extracts through JNI field accesses.  `none` models a
null array slot (the host supplied no cell for that column). -/
structure HostCell where
  char : Nat
  combining : List Nat
  fgRed : Nat
  fgGreen : Nat
  fgBlue : Nat
  bgRed : Nat
  bgGreen : Nat
  bgBlue : Nat
  bold : Bool
  italic : Bool
  underline : Nat
  reverse : Bool
  strike : Bool
  width : Nat
deriving DecidableEq, Repr

/-- Conversion of one restored column by `Terminal::invokePopScrollbackLine`
(`Terminal.cpp` lines 863-927), writing into the engine-owned cell buffer
whose previous content is `old`.  A missing host cell gets the default fill
of lines 866-880: a space, zeros in the remaining char slots, width 1,
`(192,192,192)` foreground on black, and the five transferred attribute
flags cleared — the `blink`, `font`, `dwl` and `dhl` attribute fields are
not written in either branch and keep the buffer's previous values.  A
present host cell is copied field by field (the `uint8_t` casts of the jint
color channels truncate mod 256; `attrs.underline` is a 2-bit bitfield). -/
def popFillCell (old : VCell) (h : Option HostCell) : VCell :=
  match h with
  | none =>
    { old with
      chars := [0x20, 0, 0, 0, 0, 0],
      width := 1,
      fg := VColor.rgb ⟨192, 192, 192⟩,
      bg := VColor.rgb ⟨0, 0, 0⟩,
      attrs := { old.attrs with
        bold := false,
        italic := false,
        underline := 0,
        reverse := false,
        strike := false } }
  | some hc =>
    let cs := hc.char :: hc.combining.take 5
    { old with
      chars := cs ++ List.replicate (6 - cs.length) 0,
      width := hc.width,
      fg := VColor.rgb ⟨hc.fgRed % 256, hc.fgGreen % 256, hc.fgBlue % 256⟩,
      bg := VColor.rgb ⟨hc.bgRed % 256, hc.bgGreen % 256, hc.bgBlue % 256⟩,
      attrs := { old.attrs with
        bold := hc.bold,
        italic := hc.italic,
        underline := hc.underline % 4,
        reverse := hc.reverse,
        strike := hc.strike } }

/-- `Terminal::invokePopScrollbackLine` (`Terminal.cpp` lines 804-936): if
the host callback reports no scrollback (`result == 0`) the buffer is left
untouched and 0 is returned; otherwise every column of the engine buffer is
filled from the host's cell array and 1 is returned. -/
def invokePopScrollbackLine (buffer : List VCell) (hostResult : Int)
    (hostCells : List (Option HostCell)) : Int × List VCell :=
  if hostResult = 0 then (0, buffer)
  else (1, List.zipWith popFillCell buffer hostCells)

/-! ### Claims about the bridge -/

/-- C3 counterexample: on a session whose engine failed to construct
(`mVt = false`), `resize` still overwrites the stored dimensions (the
session had 24 rows and has 10 after the call), and `reset` is no reliable
no-op: it branches on the never-initialized `mVts` member, and when that
indeterminate value reads as non-null (modelled here as `mVts = true`) the
call reaches the dead engine and forwards its callbacks instead of
returning silently. -/
theorem uninit_ops_counterexample :
    (⟨false, true, true, 24, 80, [], ⟨0, 0, 0⟩, ⟨0, 0, 0⟩⟩ : Session).mVt =
      false ∧
    (resize ⟨false, true, true, 24, 80, [], ⟨0, 0, 0⟩, ⟨0, 0, 0⟩⟩ 10 12 []).1 ≠
      (⟨false, true, true, 24, 80, [], ⟨0, 0, 0⟩, ⟨0, 0, 0⟩⟩ : Session) ∧
    reset ⟨false, true, true, 24, 80, [], ⟨0, 0, 0⟩, ⟨0, 0, 0⟩⟩
        [Notification.damage 0 1 0 1] ≠
      (⟨false, true, true, 24, 80, [], ⟨0, 0, 0⟩, ⟨0, 0, 0⟩⟩, []) := by
  decide

/-- C3 (amended): on a session whose engine failed to construct, the
operations guarded by the reliably-assigned `mVt` member — `writeInput`,
`dispatchKey`, `dispatchCharacter`, `setPaletteColors`, `setDefaultColors` —
return their zero/false/unavailable sentinel without touching the engine,
without emitting notifications and without changing session state;
`resize` returns 0 but updates the stored row/column dimensions (and
nothing else) even though the engine is absent; `reset` and `getCellRun`
guard on the `mVts` member, which is never initialized on this path, so
they degrade to a no-op returning nothing/zero only when that indeterminate
value happens to read as null. -/
theorem uninit_ops_noop (s : Session) (data : List Nat) (ew : Int)
    (en1 en2 en3 : List Notification) (m k cp r c : Int) (colors : List Nat)
    (count fg bg : Int) (screen : List (List VCell)) (row col : Int)
    (h : s.mVt = false) :
    writeInput s data ew en1 = (s, 0, []) ∧
    dispatchKey s m k = (s, false) ∧
    dispatchCharacter s m cp = (s, false) ∧
    setPaletteColors s colors count = (s, -1, []) ∧
    setDefaultColors s fg.toNat bg.toNat = (s, -1, []) ∧
    resize s r c en3 = ({ s with mRows := r, mCols := c }, 0, []) ∧
    (s.mVts = false → reset s en2 = (s, [])) ∧
    (s.mVts = false → getCellRun s screen row col = 0) := by
  refine ⟨?_, ?_, ?_, ?_, ?_, ?_, ?_, ?_⟩
  · simp [writeInput, h]
  · simp [dispatchKey, h]
  · simp [dispatchCharacter, h]
  · simp [setPaletteColors, h]
  · simp [setDefaultColors, h]
  · simp [resize, h]
  · intro hvts
    simp [reset, hvts]
  · intro hvts
    simp [getCellRun, hvts]

/-- Witness for C3 on a concrete failed-construction session whose `mVts`
member happens to read as null. -/
theorem uninit_ops_noop_witness :
    writeInput ⟨false, false, true, 24, 80, [], ⟨0, 0, 0⟩, ⟨0, 0, 0⟩⟩ [1, 2] 7
        [Notification.damage 0 1 0 1] =
      (⟨false, false, true, 24, 80, [], ⟨0, 0, 0⟩, ⟨0, 0, 0⟩⟩, 0, []) ∧
    dispatchKey ⟨false, false, true, 24, 80, [], ⟨0, 0, 0⟩, ⟨0, 0, 0⟩⟩ 1 13 =
      (⟨false, false, true, 24, 80, [], ⟨0, 0, 0⟩, ⟨0, 0, 0⟩⟩, false) ∧
    dispatchCharacter ⟨false, false, true, 24, 80, [], ⟨0, 0, 0⟩, ⟨0, 0, 0⟩⟩
        0 65 =
      (⟨false, false, true, 24, 80, [], ⟨0, 0, 0⟩, ⟨0, 0, 0⟩⟩, false) ∧
    setPaletteColors ⟨false, false, true, 24, 80, [], ⟨0, 0, 0⟩, ⟨0, 0, 0⟩⟩
        [255] 1 =
      (⟨false, false, true, 24, 80, [], ⟨0, 0, 0⟩, ⟨0, 0, 0⟩⟩, -1, []) ∧
    setDefaultColors ⟨false, false, true, 24, 80, [], ⟨0, 0, 0⟩, ⟨0, 0, 0⟩⟩
        (255 : Int).toNat (0 : Int).toNat =
      (⟨false, false, true, 24, 80, [], ⟨0, 0, 0⟩, ⟨0, 0, 0⟩⟩, -1, []) ∧
    resize ⟨false, false, true, 24, 80, [], ⟨0, 0, 0⟩, ⟨0, 0, 0⟩⟩ 10 12 [] =
      ({ (⟨false, false, true, 24, 80, [], ⟨0, 0, 0⟩, ⟨0, 0, 0⟩⟩ : Session)
          with
        mRows := 10, mCols := 12 }, 0, []) ∧
    reset ⟨false, false, true, 24, 80, [], ⟨0, 0, 0⟩, ⟨0, 0, 0⟩⟩ [] =
      (⟨false, false, true, 24, 80, [], ⟨0, 0, 0⟩, ⟨0, 0, 0⟩⟩, []) ∧
    getCellRun ⟨false, false, true, 24, 80, [], ⟨0, 0, 0⟩, ⟨0, 0, 0⟩⟩ [] 0 0 =
      0 :=
  have h := uninit_ops_noop
    ⟨false, false, true, 24, 80, [], ⟨0, 0, 0⟩, ⟨0, 0, 0⟩⟩ [1, 2] 7
    [Notification.damage 0 1 0 1] [] [] 1 13 65 10 12 [255] 1 255 0 [] 0 0 rfl
  ⟨h.1, h.2.1, h.2.2.1, h.2.2.2.1, h.2.2.2.2.1, h.2.2.2.2.2.1,
    h.2.2.2.2.2.2.1 rfl, h.2.2.2.2.2.2.2 rfl⟩

/-- C4 counterexample: a session whose engine constructed but whose `damage`
method lookup failed is initialized, yet `setPaletteColors` emits no damage
notification at all (the notification path is disabled, not one full-grid
notification). -/
theorem setPalette_no_damage_method :
    (⟨true, true, false, 2, 2, [], ⟨0, 0, 0⟩, ⟨0, 0, 0⟩⟩ : Session).mVt = true ∧
    (setPaletteColors ⟨true, true, false, 2, 2, [], ⟨0, 0, 0⟩, ⟨0, 0, 0⟩⟩ [255] 1).2.2 =
      [] := by
  decide

/-- C4 (amended): on an initialized session whose `damage` callback method
was resolved at construction, each call to `setPaletteColors` and to
`setDefaultColors` emits exactly one damage notification, covering rows
`[0, mRows)` and columns `[0, mCols)`. -/
theorem setColors_full_damage (s : Session) (colors : List Nat) (count : Int)
    (fg bg : Nat) (h1 : s.mVt = true) (h2 : s.mDamageMethod = true) :
    (setPaletteColors s colors count).2.2 =
      [Notification.damage 0 s.mRows 0 s.mCols] ∧
    (setDefaultColors s fg bg).2.2 =
      [Notification.damage 0 s.mRows 0 s.mCols] := by
  constructor <;> simp [setPaletteColors, setDefaultColors, invokeDamage, h1, h2]

/-- Witness for C4 on a concrete initialized 2-by-3 session. -/
theorem setColors_full_damage_witness :
    (setPaletteColors ⟨true, true, true, 2, 3, [⟨1, 2, 3⟩], ⟨0, 0, 0⟩, ⟨0, 0, 0⟩⟩
        [0xFF0000] 1).2.2 =
      [Notification.damage 0 2 0 3] ∧
    (setDefaultColors ⟨true, true, true, 2, 3, [⟨1, 2, 3⟩], ⟨0, 0, 0⟩, ⟨0, 0, 0⟩⟩
        0xC0C0C0 0).2.2 =
      [Notification.damage 0 2 0 3] :=
  setColors_full_damage ⟨true, true, true, 2, 3, [⟨1, 2, 3⟩], ⟨0, 0, 0⟩, ⟨0, 0, 0⟩⟩
    [0xFF0000] 1 0xC0C0C0 0 rfl rfl

/-- C2 (evaluation at the failing input): a 1-row, 22-column initialized
session whose row consists of 22 same-style cells, each carrying six
supplementary-plane codepoints (12 UTF-16 code units per cell), produces a
cell run of 264 code units.  The capacity check `runLength < 256` passes at
252 before the 22nd cell, and that cell then appends 12 more units, so the C
code writes `chars[252]` through `chars[263]` — eight writes past the end of
the 256-entry stack buffer — contradicting the claim that all writes stay
within capacity. -/
theorem getCellRun_overflow_eval :
    getCellRun ⟨true, true, true, 1, 22, [], ⟨0, 0, 0⟩, ⟨0, 0, 0⟩⟩
      [List.replicate 22
        ⟨List.replicate 6 0x1F600, 1, VColor.defaultFg, VColor.defaultBg,
          ⟨false, 0, false, false, false, false, 0, false, 0⟩⟩] 0 0 = 264 ∧
    256 < 264 := by
  decide

/-- Every cell contributes at least one code unit to a run: an empty cell
contributes a space, a non-empty cell at least its first codepoint. -/
theorem cellUnits_length_pos (cs : List Nat) : 1 ≤ (cellUnits cs).length := by
  unfold cellUnits
  split
  · simp
  · rename_i h
    cases cs with
    | nil => simp [List.getD] at h
    | cons c0 cs2 =>
      have hc0 : ¬c0 = 0 := by simpa [List.getD] using h
      have h1 : 1 ≤ (utf16units c0).length := by
        unfold utf16units
        split <;> simp
      simp only [cellCodepoints, List.take_succ_cons, List.takeWhile_cons]
      rw [if_pos (by simpa using hc0)]
      simp only [List.flatMap_cons, List.length_append]
      omega

/-- The run scan only ever appends to its accumulator. -/
theorem runScan_acc_le :
    ∀ (n : Nat) (cells : List VCell) (ref : VCell) (first : Bool) (acc : List Nat),
      cells.length ≤ n → acc.length ≤ (runScan ref cells first acc).length := by
  intro n
  induction n with
  | zero =>
    intro cells ref first acc hle
    match cells with
    | [] => exact Nat.le_refl _
    | c :: rest => simp at hle
  | succ n ih =>
    intro cells ref first acc hle
    match cells with
    | [] => exact Nat.le_refl _
    | cell :: rest =>
      rw [runScan.eq_def]
      simp only []
      by_cases hcap : acc.length < 256
      · rw [if_pos hcap]
        by_cases hstop : first = false ∧ cellStyleEqual ref cell = false
        · rw [if_pos hstop]
        · rw [if_neg hstop]
          have hacc2 : acc.length ≤ (acc ++ cellUnits cell.chars).length := by
            simp
          by_cases hw : cell.width = 2
          · rw [if_pos hw]
            cases rest with
            | nil => simp only []; exact hacc2
            | cons hd t =>
              simp only []
              have := ih t ref false (acc ++ cellUnits cell.chars)
                (by simp at hle; omega)
              omega
          · rw [if_neg hw]
            have := ih rest ref false (acc ++ cellUnits cell.chars)
              (by simp at hle; omega)
            omega
      · rw [if_neg hcap]

/-- Starting the scan at a reference cell always yields at least one code
unit: the first cell is processed unconditionally. -/
theorem runScan_start_pos (ref cell : VCell) (rest : List VCell) :
    1 ≤ (runScan ref (cell :: rest) true []).length := by
  rw [runScan.eq_def]
  simp only []
  rw [if_pos (by simp)]
  rw [if_neg (by simp)]
  have hcell := cellUnits_length_pos cell.chars
  by_cases hw : cell.width = 2
  · rw [if_pos hw]
    cases rest with
    | nil => simpa using hcell
    | cons hd t =>
      simp only []
      have := runScan_acc_le t.length t ref false ([] ++ cellUnits cell.chars)
        (Nat.le_refl _)
      simp at this
      simpa using Nat.le_trans hcell (by simpa using this)
  · rw [if_neg hw]
    have := runScan_acc_le rest.length rest ref false ([] ++ cellUnits cell.chars)
      (Nat.le_refl _)
    simp at this
    simpa using Nat.le_trans hcell (by simpa using this)

/-- C5 counterexample: `getCellRun` guards on the `mVts` member (line 409),
which on a failed-construction session was never assigned.  Here a session
with `mVt = false` whose indeterminate `mVts` reads as non-null returns a
run of length 1 from an in-range cell, not 0, so "returns 0 whenever the
session is uninitialized" is not established by the code. -/
theorem getCellRun_uninit_nonzero :
    (⟨false, true, true, 1, 1, [], ⟨0, 0, 0⟩, ⟨0, 0, 0⟩⟩ : Session).mVt =
      false ∧
    getCellRun ⟨false, true, true, 1, 1, [], ⟨0, 0, 0⟩, ⟨0, 0, 0⟩⟩
      [[⟨[0x41], 1, VColor.defaultFg, VColor.defaultBg,
        ⟨false, 0, false, false, false, false, 0, false, 0⟩⟩]] 0 0 = 1 := by
  decide

/-- C5 (amended): on a well-formed engine grid (one row list per stored
row, each of the stored column count), `getCellRun` returns a zero-length
run exactly when the `mVts` member reads as null or `(row, col)` is out of
range; when `mVts` is non-null and the coordinates are in bounds the run
has length at least one, since it always contains the reference cell (an
empty cell contributing one space code unit).  On a live session `mVts` is
the screen assigned at construction, so the null leg is the unavailable
session; on a failed-construction session `mVts` is indeterminate, so
"uninitialized implies zero" is not established. -/
theorem getCellRun_zero_iff (s : Session) (screen : List (List VCell))
    (row col : Int) (hrows : screen.length = s.mRows.toNat)
    (hcols : ∀ r ∈ screen, r.length = s.mCols.toNat) :
    (getCellRun s screen row col = 0 ↔
      (s.mVts = false ∨ row < 0 ∨ s.mRows ≤ row ∨ col < 0 ∨ s.mCols ≤ col)) := by
  unfold getCellRun
  split
  · rename_i h
    simp [h]
  · rename_i h
    have h1 : ¬s.mVts = false := fun hc => h (Or.inl hc)
    have h2 : ¬row < 0 := fun hc => h (Or.inr (Or.inl hc))
    have h3 : ¬s.mRows ≤ row := fun hc => h (Or.inr (Or.inr (Or.inl hc)))
    have h4 : ¬col < 0 := fun hc => h (Or.inr (Or.inr (Or.inr (Or.inl hc))))
    have h5 : ¬s.mCols ≤ col := fun hc => h (Or.inr (Or.inr (Or.inr (Or.inr hc))))
    have hr : row.toNat < screen.length := by rw [hrows]; omega
    have hmem : screen.getD row.toNat [] ∈ screen := by
      have := List.getD_eq_getElem screen [] hr
      rw [this]
      exact List.getElem_mem hr
    have hlen : (screen.getD row.toNat []).length = s.mCols.toNat :=
      hcols _ hmem
    have hcol : col.toNat < (screen.getD row.toNat []).length := by
      rw [hlen]; omega
    have hdrop : (screen.getD row.toNat []).drop col.toNat ≠ [] := by
      intro hemp
      have := List.drop_eq_nil_iff.mp hemp
      omega
    obtain ⟨ref, restCells, hre⟩ :
        ∃ ref restCells,
          (screen.getD row.toNat []).drop col.toNat = ref :: restCells := by
      cases hd : (screen.getD row.toNat []).drop col.toNat with
      | nil => exact absurd hd hdrop
      | cons a b => exact ⟨a, b, rfl⟩
    rw [hre]
    simp only []
    exact iff_of_false (by have := runScan_start_pos ref ref restCells; omega) h

/-- Witness for C5 on a concrete initialized 1-by-1 session with a one-cell
grid. -/
theorem getCellRun_zero_iff_witness :
    (getCellRun ⟨true, true, true, 1, 1, [], ⟨0, 0, 0⟩, ⟨0, 0, 0⟩⟩
        [[⟨[0x41], 1, VColor.defaultFg, VColor.defaultBg,
          ⟨false, 0, false, false, false, false, 0, false, 0⟩⟩]] 0 0 = 0 ↔
      ((⟨true, true, true, 1, 1, [], ⟨0, 0, 0⟩, ⟨0, 0, 0⟩⟩ : Session).mVts =
          false ∨
        (0 : Int) < 0 ∨
        (⟨true, true, true, 1, 1, [], ⟨0, 0, 0⟩, ⟨0, 0, 0⟩⟩ : Session).mRows ≤ 0 ∨
        (0 : Int) < 0 ∨
        (⟨true, true, true, 1, 1, [], ⟨0, 0, 0⟩, ⟨0, 0, 0⟩⟩ : Session).mCols ≤ 0)) :=
  getCellRun_zero_iff ⟨true, true, true, 1, 1, [], ⟨0, 0, 0⟩, ⟨0, 0, 0⟩⟩
    [[⟨[0x41], 1, VColor.defaultFg, VColor.defaultBg,
      ⟨false, 0, false, false, false, false, 0, false, 0⟩⟩]] 0 0 (by decide)
    (by decide)

/-- `noAdjacentWide` holds of every suffix. -/
theorem noAdjacentWide_tail (a : VCell) (rest : List VCell)
    (h : noAdjacentWide (a :: rest) = true) : noAdjacentWide rest = true := by
  cases rest with
  | nil => rfl
  | cons b rest2 =>
    rw [noAdjacentWide.eq_def] at h
    simp only [Bool.and_eq_true] at h
    exact h.2

/-- A cell that is not wide never creates a placeholder for its successor. -/
theorem placeholderCount_cons_of_not_wide (b : VCell) (xs : List VCell)
    (hb : ¬b.width = 2) : placeholderCount (b :: xs) = placeholderCount xs := by
  cases xs with
  | nil => rfl
  | cons c xs2 =>
    rw [placeholderCount.eq_def]
    simp [hb]

/-- Entry-count accounting for the scrollback push: one entry per iterated
cell, one skipped placeholder per wide cell that has a successor. -/
theorem push_count_aux :
    ∀ (n : Nat) (row : List VCell), row.length ≤ n → noAdjacentWide row = true →
      (invokePushScrollbackLine row).length + placeholderCount row =
        row.length := by
  intro n
  induction n with
  | zero =>
    intro row hle hwf
    match row with
    | [] => rfl
    | a :: rest => simp at hle
  | succ n ih =>
    intro row hle hwf
    match row with
    | [] => rfl
    | [a] =>
      rw [invokePushScrollbackLine.eq_def]
      by_cases hw : a.width = 2 <;> simp [hw, placeholderCount] <;> rfl
    | a :: b :: rest2 =>
      have hlen : (b :: rest2).length ≤ n := by simp at hle ⊢; omega
      have hwfb : noAdjacentWide (b :: rest2) = true := noAdjacentWide_tail a _ hwf
      have hpair : ¬(a.width = 2 ∧ b.width = 2) := by
        intro hc
        rw [noAdjacentWide.eq_def] at hwf
        simp [hc.1, hc.2] at hwf
      rw [invokePushScrollbackLine.eq_def]
      simp only []
      by_cases hw : a.width = 2
      · rw [if_pos hw]
        have hb2 : ¬b.width = 2 := fun hc => hpair ⟨hw, hc⟩
        have hwfr2 : noAdjacentWide rest2 = true := noAdjacentWide_tail b _ hwfb
        have hih := ih rest2 (by simp at hlen; omega) hwfr2
        have hph : placeholderCount (a :: b :: rest2) =
            1 + placeholderCount (b :: rest2) := by
          rw [placeholderCount.eq_def]
          simp only []
          rw [if_pos hw]
        rw [hph, placeholderCount_cons_of_not_wide b rest2 hb2]
        simp only [List.length_cons]
        omega
      · rw [if_neg hw]
        have hih := ih (b :: rest2) hlen hwfb
        have hph : placeholderCount (a :: b :: rest2) =
            placeholderCount (b :: rest2) := by
          rw [placeholderCount.eq_def]
          simp only []
          rw [if_neg hw]
          omega
        rw [hph]
        simp only [List.length_cons] at hih ⊢
        omega

/-- C8: for every pushed row in which no wide cell is directly followed by
another wide cell (so the cell after each width-2 cell is its placeholder),
the `ScreenCell` array delivered to the host has exactly one entry per
non-placeholder cell — its length is the raw column count minus the number
of placeholder columns — and it is strictly shorter than the raw column
count as soon as the row contains a wide cell with its placeholder. -/
theorem pushScrollback_entry_count (row : List VCell)
    (hwf : noAdjacentWide row = true) :
    (invokePushScrollbackLine row).length =
      row.length - placeholderCount row ∧
    (0 < placeholderCount row →
      (invokePushScrollbackLine row).length < row.length) := by
  have h := push_count_aux row.length row (Nat.le_refl _) hwf
  constructor <;> omega

/-- A sample 5-column row: plain cells in columns 0-2, a width-2 cell in
column 3 and its placeholder in column 4 (spec test case 5). -/
def sampleWideRow : List VCell :=
  [⟨[0x41], 1, VColor.defaultFg, VColor.defaultBg,
    ⟨false, 0, false, false, false, false, 0, false, 0⟩⟩,
   ⟨[0x42], 1, VColor.defaultFg, VColor.defaultBg,
    ⟨false, 0, false, false, false, false, 0, false, 0⟩⟩,
   ⟨[0x43], 1, VColor.defaultFg, VColor.defaultBg,
    ⟨false, 0, false, false, false, false, 0, false, 0⟩⟩,
   ⟨[0x4E2D], 2, VColor.defaultFg, VColor.defaultBg,
    ⟨false, 0, false, false, false, false, 0, false, 0⟩⟩,
   ⟨[], 1, VColor.defaultFg, VColor.defaultBg,
    ⟨false, 0, false, false, false, false, 0, false, 0⟩⟩]

/-- Witness for C8 on `sampleWideRow`: 5 raw columns, 1 placeholder, 4
entries. -/
theorem pushScrollback_entry_count_witness :
    (invokePushScrollbackLine sampleWideRow).length =
      sampleWideRow.length - placeholderCount sampleWideRow ∧
    (0 < placeholderCount sampleWideRow →
      (invokePushScrollbackLine sampleWideRow).length <
        sampleWideRow.length) :=
  pushScrollback_entry_count sampleWideRow (by decide)

/-- C9 counterexample: a column with no host cell is filled on top of a
buffer cell whose `blink` attribute was set (for example stale from an
earlier push through the engine's reusable scrollback buffer); the restored
cell keeps `blink = true`, so not every style flag of the restored cell is
clear. -/
theorem popFill_blink_preserved :
    (popFillCell
      ⟨[0x41, 0, 0, 0, 0, 0], 1, VColor.defaultFg, VColor.defaultBg,
        ⟨false, 0, false, true, false, false, 0, false, 0⟩⟩ none).attrs.blink =
      true := by
  decide

/-- C9 (amended): when a popped scrollback line is restored with host data
(`result ≠ 0`), every in-range column for which the host supplied no cell is
written as the default cell: a single space as the only codepoint (the
remaining five char slots zeroed), width 1, foreground `(192,192,192)` — the
default palette foreground — on black background, and the five
host-transferred style flags (bold, italic, underline, reverse, strike)
cleared; the engine-side `blink`, `font`, `dwl` and `dhl` attribute fields
are not written and keep the buffer's previous values. -/
theorem popFill_missing_default (buffer : List VCell)
    (hostCells : List (Option HostCell)) (hostResult : Int) (i : Nat) (d : VCell)
    (hres : ¬hostResult = 0) (hi : i < buffer.length) (hh : i < hostCells.length)
    (hnone : hostCells.getD i none = none) :
    (invokePopScrollbackLine buffer hostResult hostCells).2.getD i d =
      { buffer.getD i d with
        chars := [0x20, 0, 0, 0, 0, 0],
        width := 1,
        fg := VColor.rgb ⟨192, 192, 192⟩,
        bg := VColor.rgb ⟨0, 0, 0⟩,
        attrs := { (buffer.getD i d).attrs with
          bold := false,
          italic := false,
          underline := 0,
          reverse := false,
          strike := false } } := by
  unfold invokePopScrollbackLine
  rw [if_neg hres]
  simp only []
  have hz : i < (List.zipWith popFillCell buffer hostCells).length := by
    rw [List.length_zipWith]
    omega
  rw [List.getD_eq_getElem _ _ hz, List.getElem_zipWith,
    List.getD_eq_getElem buffer d hi]
  have : hostCells[i] = none := by
    rw [← List.getD_eq_getElem hostCells none hh]
    exact hnone
  rw [this]
  rfl

/-- Witness for C9: a one-column buffer with a dirty cell and a host answer
with a null slot. -/
theorem popFill_missing_default_witness :
    (invokePopScrollbackLine
        [⟨[0x41, 0, 0, 0, 0, 0], 1, VColor.defaultFg, VColor.defaultBg,
          ⟨true, 3, true, true, true, true, 1, true, 2⟩⟩] 1 [none]).2.getD 0
        ⟨[], 1, VColor.defaultFg, VColor.defaultBg,
          ⟨false, 0, false, false, false, false, 0, false, 0⟩⟩ =
      { (([⟨[0x41, 0, 0, 0, 0, 0], 1, VColor.defaultFg, VColor.defaultBg,
          ⟨true, 3, true, true, true, true, 1, true, 2⟩⟩] : List VCell).getD 0
          ⟨[], 1, VColor.defaultFg, VColor.defaultBg,
            ⟨false, 0, false, false, false, false, 0, false, 0⟩⟩) with
        chars := [0x20, 0, 0, 0, 0, 0],
        width := 1,
        fg := VColor.rgb ⟨192, 192, 192⟩,
        bg := VColor.rgb ⟨0, 0, 0⟩,
        attrs := { (([⟨[0x41, 0, 0, 0, 0, 0], 1, VColor.defaultFg,
            VColor.defaultBg, ⟨true, 3, true, true, true, true, 1, true, 2⟩⟩] :
              List VCell).getD 0
            ⟨[], 1, VColor.defaultFg, VColor.defaultBg,
              ⟨false, 0, false, false, false, false, 0, false, 0⟩⟩).attrs with
          bold := false,
          italic := false,
          underline := 0,
          reverse := false,
          strike := false } } :=
  popFill_missing_default
    [⟨[0x41, 0, 0, 0, 0, 0], 1, VColor.defaultFg, VColor.defaultBg,
      ⟨true, 3, true, true, true, true, 1, true, 2⟩⟩] [none] 1 0
    ⟨[], 1, VColor.defaultFg, VColor.defaultBg,
      ⟨false, 0, false, false, false, false, 0, false, 0⟩⟩ (by decide)
    (by decide) (by decide) (by decide)

end Termlib
